import Mathlib

/-!
Verification of the interactive session controller of `jdiegodcp/gemini-cli`
(the LM-Studio-integrated `App.tsx`, given as `src/unnamed/part_000`).

The development shallowly embeds the pieces of the source the claims are
about: the filename-token regex, the recursive filesystem search, the
context-enrichment (budget / truncation) logic, the approval gate, the
model-dispatch client, the exit-confirmation debouncer and the history
deduplicator.  Stateful code is embedded as explicit state passing: every
operation returns the successor state together with the ordered list of
side-effecting `Action`s it performed, and `applyActions` folds those
actions onto a state.
-/

namespace GeminiCli

/-- `MessageType` from `./types.js` (only the constructors this file uses). -/
inductive MessageType where
  | user
  | gemini
  | info
  | error
deriving DecidableEq, Repr

/-- `StreamingState` from `./types.js`: whether a model request is in flight. -/
inductive StreamingState where
  | idle
  | responding
deriving DecidableEq, Repr

/-- One history entry as produced by `addItem` calls in the source:
a message type together with its text.  (Ids/timestamps are opaque ordinals
irrelevant to every claim and are omitted.) -/
structure HistoryEntry where
  type : MessageType
  text : String
deriving DecidableEq, Repr

/-! ## The filename-token regex

`submitQuery` runs `prompt.match(/([\w.-]+\.[\w]+)/g)` and keeps the first
match.  We embed JavaScript regex matching for this one pattern:
leftmost match, greedy `[\w.-]+` with backtracking to find a literal dot
followed by a greedy nonempty `[\w]+` run. -/

/-- JavaScript `\w` without the unicode flag: `[A-Za-z0-9_]`. -/
def isWordChar (c : Char) : Bool :=
  c.isAlpha || c.isDigit || c = '_'

/-- The character class `[\w.-]` of the filename pattern. -/
def isFilenameChar (c : Char) : Bool :=
  isWordChar c || c = '.' || c = '-'

/-- The backtracking choice point of `[\w.-]+\.[\w]+` at a fixed start:
the largest `k ≥ 1` such that the `k`-th character of the maximal
`[\w.-]` run is a literal `'.'` and is followed by a `\w` character.
(The regex engine shrinks the greedy first group from the right, so the
largest such split wins.) -/
def bestSplit (run : List Char) : Option Nat :=
  (List.range run.length).reverse.find? fun k =>
    decide (1 ≤ k) && (run.get? k == some '.') &&
      ((run.get? (k + 1)).elim false isWordChar)

/-- Try to match `([\w.-]+\.[\w]+)` anchored at the head of `l`. -/
def matchAt (l : List Char) : Option (List Char) :=
  let run := l.takeWhile isFilenameChar
  match bestSplit run with
  | some k => some (run.take k ++ '.' :: (l.drop (k + 1)).takeWhile isWordChar)
  | none => none

/-- Leftmost match: scan start positions left to right. -/
def firstMatchAux : List Char → Option (List Char)
  | [] => none
  | c :: rest =>
    match matchAt (c :: rest) with
    | some m => some m
    | none => firstMatchAux rest

/-- `prompt.match(/([\w.-]+\.[\w]+)/g)` followed by `filePaths[0]`:
the first filename-like token of the prompt, if any. -/
def firstFileToken (s : String) : Option String :=
  (firstMatchAux s.data).map String.mk

/-! ## The filesystem and `findFileRecursive`

The filesystem is modelled as a forest of named directories and files
(the source's `lstat` distinguishes exactly these two shapes on the trees
the claims exercise; symlinks are out of scope).  `path.join` is modelled
as `/`-concatenation — no claim depends on path normalisation. -/

/-- A filesystem entry: a file with its content, or a directory. -/
inductive FSEntry where
  | file (name : String) (content : String)
  | dir (name : String) (entries : List FSEntry)

/-- The fixed ignore set of `findFileRecursive`. -/
def ignoreDirs : List String := ["node_modules", ".git", "dist", "build"]

/-- Model of `path.join(currentPath, file)`. -/
def pathJoin (a b : String) : String := a ++ "/" ++ b

/-- Outcome of the recursive search.  The source's `else if` makes a
directory from the ignore set whose *name* equals the filter a hit as well
(its path would then be handed to `readFileSync`, which would throw);
`token_notMem_ignoreDirs` below shows that case is unreachable for filters
produced by the filename regex. -/
inductive SearchHit where
  | fileHit (path : String) (content : String)
  | dirHit (path : String)
deriving DecidableEq, Repr

mutual

/-- One loop iteration of `search` in `findFileRecursive`: a non-ignored
directory is recursed into (and never itself compared with the filter); any
other entry is compared by base name. -/
def searchEntry (filter currentPath : String) : FSEntry → Option SearchHit
  | .dir name entries =>
    if ignoreDirs.contains name then
      if name = filter then some (.dirHit (pathJoin currentPath name)) else none
    else
      searchList filter (pathJoin currentPath name) entries
  | .file name content =>
    if name = filter then some (.fileHit (pathJoin currentPath name) content) else none

/-- The `for (const file of files)` loop: first hit wins, in enumeration
order (depth-first). -/
def searchList (filter currentPath : String) : List FSEntry → Option SearchHit
  | [] => none
  | e :: rest =>
    match searchEntry filter currentPath e with
    | some hit => some hit
    | none => searchList filter currentPath rest

end

/-- `findFileRecursive(startPath, filter)`: the found path, if any. -/
def findFileRecursive (startPath filter : String) (entries : List FSEntry) : Option String :=
  (searchList filter startPath entries).map fun hit =>
    match hit with
    | .fileHit p _ => p
    | .dirHit p => p

/-! ## Context enrichment: budget and truncation -/

/-- `MAX_CONTEXT_TOKENS` from the source. -/
def MAX_CONTEXT_TOKENS : Nat := 4096

/-- The literal `'{CONTENT}'` placeholder. -/
def contentPlaceholder : String := "{CONTENT}"

/-- The `baseTemplate` template literal of `submitQuery`, with the prompt
and the found path interpolated. -/
def baseTemplate (prompt fullPath : String) : String :=
  "The user wants me to do the following: \"" ++ prompt ++
    "\". I have found the relevant file at \"" ++ fullPath ++
    "\", and its content is:\n```\n" ++ contentPlaceholder ++
    "\n```\nPlease proceed."

/-- `availableChars = maxChars - (baseTemplate.length - '{CONTENT}'.length)`
computed over the integers, as JavaScript numbers allow it to go negative. -/
def computeBudget (prompt fullPath : String) : Int :=
  (MAX_CONTEXT_TOKENS * 4 : Int) -
    (((baseTemplate prompt fullPath).length : Int) - (contentPlaceholder.length : Int))

/-- `fileContent.substring(0, availableChars)` guarded by
`fileContent.length > availableChars`: JavaScript `substring` clamps a
negative end index to `0`. -/
def truncatedContent (prompt fullPath fileContent : String) : String :=
  if (fileContent.length : Int) > computeBudget prompt fullPath then
    String.mk (fileContent.data.take (computeBudget prompt fullPath).toNat)
  else fileContent

/-- The truncation warning recorded when the file content exceeds the budget. -/
def truncWarn (fileName : String) : String :=
  "⚠️ Warning: The file \"" ++ fileName ++ "\" was truncated."

/-- JavaScript `String.prototype.replace` with a string pattern: replace the
first occurrence only.  (Dollar escape sequences in the replacement are not
modelled; no claim depends on them.) -/
def listStartsWith : List Char → List Char → Bool
  | [], _ => true
  | _ :: _, [] => false
  | p :: ps, c :: cs => p = c && listStartsWith ps cs

/-- Replace the first occurrence of `pat` in the list, if any. -/
def listReplaceFirst : List Char → List Char → List Char → List Char
  | [], _, _ => []
  | c :: rest, pat, repl =>
    if listStartsWith pat (c :: rest) then repl ++ (c :: rest).drop pat.length
    else c :: listReplaceFirst rest pat repl

/-- String-level first-occurrence replacement. -/
def jsReplaceFirst (s pat repl : String) : String :=
  String.mk (listReplaceFirst s.data pat.data repl.data)

/-- Lines 223–232 of `submitQuery` for a found file: the enriched prompt and
  the truncation notices (zero or one) recorded while building it. -/
def enrichForFound (prompt fileName fullPath fileContent : String) :
    String × List HistoryEntry :=
  let content := truncatedContent prompt fullPath fileContent
  let notes : List HistoryEntry :=
    if (fileContent.length : Int) > computeBudget prompt fullPath then
      [⟨.info, truncWarn fileName⟩]
    else []
  (jsReplaceFirst (baseTemplate prompt fullPath) contentPlaceholder content, notes)

/-- The synthesized prompt when the file could not be located. -/
def notFoundPrompt (fileName : String) : String :=
  "The user mentioned \"" ++ fileName ++
    "\", but I could not find it. Inform the user the file was not found."

/-! ## Model dispatch client (`sendQueryToModel`)

The network is a parameter: one `NetOutcome` per dispatch describes what the
single `fetch` to `/v1/chat/completions` did.  Every path of the source
function is total here — the `try/catch/finally` means no failure escapes
the call, which the embedding renders by returning in every case. -/

/-- The shape of a 2xx JSON body: `{choices: [{message: {content: …}}]}`. -/
structure ChoiceMessage where
  content : String
deriving DecidableEq, Repr

/-- One element of the `choices` array. -/
structure ResponseChoice where
  message : ChoiceMessage
deriving DecidableEq, Repr

/-- A parsed 2xx response body. -/
structure ResponseBody where
  choices : List ResponseChoice
deriving DecidableEq, Repr

/-- What the chat-completion request did: 2xx with a body, a non-2xx status
with its error text, or a thrown network/timeout/abort error with its
message. -/
inductive NetOutcome where
  | ok (body : ResponseBody)
  | httpError (text : String)
  | netError (msg : String)
deriving DecidableEq, Repr

/-- `responseData.choices[0].message.content`: `none` when `choices` is
empty (the resulting TypeError is caught by the surrounding `catch`). -/
def parseChoiceContent (b : ResponseBody) : Option String :=
  b.choices.head?.map fun c => c.message.content

/-- The `ApprovalRequest` slot.  The source stores two closures; the data
they capture is the approval message, the enriched prompt the suspended
`proceed` would dispatch, and the original prompt text. -/
structure ApprovalData where
  message : String
  enriched : String
  original : String
deriving DecidableEq, Repr

/-- The session state owned by the controller: conversation history, the
streaming flag, the single approval slot, the selected model and the
autopilot flag. -/
structure AppState where
  history : List HistoryEntry
  streaming : StreamingState
  approval : Option ApprovalData
  selectedModel : Option String
  isAutopilot : Bool
deriving DecidableEq, Repr

/-- The side effects an operation performs, in order.  `request` is the
network call (it does not change controller state); the others are the
state writes of the source (`addItem`, `setStreamingState`,
`setApprovalRequest`, `setIsAutopilot`). -/
inductive Action where
  | append (e : HistoryEntry)
  | setStreaming (st : StreamingState)
  | request (model : String) (content : String)
  | setApproval (a : Option ApprovalData)
  | toggleAutopilot
deriving DecidableEq, Repr

/-- Modelled from the spec: `addItem` (hook `useHistoryManager`, not under
`src/`) appends one entry to the History Store ("ordered log of
conversation entries; append-only").  The other actions write the
corresponding state field. -/
def applyAction (s : AppState) : Action → AppState
  | .append e => { s with history := s.history ++ [e] }
  | .setStreaming st => { s with streaming := st }
  | .request _ _ => s
  | .setApproval a => { s with approval := a }
  | .toggleAutopilot => { s with isAutopilot := !s.isAutopilot }

/-- Fold a list of actions onto a state. -/
def applyActions (s : AppState) (l : List Action) : AppState :=
  l.foldl applyAction s

/-- The fail-fast error entry when no model is selected. -/
def noModelError : HistoryEntry :=
  ⟨.error, "Error: No local model is selected."⟩

/-- The `catch` branch error entry, with the caught message. -/
def connectionError (msg : String) : HistoryEntry :=
  ⟨.error, "Error connecting to local model: " ++ msg⟩

/-- The message of the TypeError thrown by reading `choices[0]` of an empty
array (exact runtime wording is environment-specific; modelled as a fixed
string — no claim depends on its text). -/
def emptyChoicesMsg : String := "Cannot read properties of undefined"

/-- History entries appended after the response, per outcome. -/
def responseActions (outcome : NetOutcome) : List Action :=
  match outcome with
  | .ok body =>
    match parseChoiceContent body with
    | some content => [.append ⟨.gemini, content⟩]
    | none => [.append (connectionError emptyChoicesMsg)]
  | .httpError text => [.append (connectionError ("API request failed: " ++ text))]
  | .netError msg => [.append (connectionError msg)]

/-- The ordered side effects of one `sendQueryToModel(promptToSend,
originalPrompt)` call from state `s`: fail fast without a model; otherwise
append the user line unless it already is the most recent entry, set
`Responding`, issue the request, append the response or error entry, and
(`finally`) set `Idle`. -/
def sendQueryTrace (s : AppState) (outcome : NetOutcome)
    (promptToSend originalPrompt : String) : List Action :=
  match s.selectedModel with
  | none => [.append noModelError]
  | some m =>
    (if s.history.getLast?.map (·.text) = some originalPrompt then []
     else [.append ⟨.user, originalPrompt⟩]) ++
    [.setStreaming .responding, .request m promptToSend] ++
    responseActions outcome ++
    [.setStreaming .idle]

/-- The environment a submission runs against: the working-directory tree,
the working directory path, and what the network does for the dispatch. -/
structure Env where
  fs : List FSEntry
  cwd : String
  outcome : NetOutcome

/-- `sendQueryToModel` as a state transformer: successor state plus trace. -/
def sendQueryToModel (env : Env) (s : AppState)
    (promptToSend originalPrompt : String) : AppState × List Action :=
  let tr := sendQueryTrace s env.outcome promptToSend originalPrompt
  (applyActions s tr, tr)

/-! ## `submitQuery`: enrichment, gate, dispatch -/

/-- The approval prompt shown for a detected filename token. -/
def approvalMessage (fileName : String) : String :=
  "I need to access the file system to find \"" ++ fileName ++ "\". Proceed? (Y/n)"

/-- The `Autopilot ON.` informational entry. -/
def autopilotInfo (fullPath? : Option String) (fileName : String) : HistoryEntry :=
  ⟨.info, "Autopilot ON. " ++
    (match fullPath? with
     | some fp => "Reading file: " ++ fp
     | none => "Could not find file: " ++ fileName)⟩

/-- The common tail of `submitQuery` once a filename token was detected:
record the enrichment notices, then either proceed immediately under
autopilot (with an informational entry) or raise an `ApprovalRequest` and
suspend. -/
def gateAndDispatch (env : Env) (s : AppState) (prompt fileName : String)
    (fullPath? : Option String) (enrichedPrompt : String)
    (notes : List HistoryEntry) : AppState × List Action :=
  let noteActs := notes.map Action.append
  let s1 := applyActions s noteActs
  if s.isAutopilot then
    let info := autopilotInfo fullPath? fileName
    let s2 := applyActions s1 [.append info]
    let r := sendQueryToModel env s2 enrichedPrompt prompt
    (r.1, noteActs ++ [.append info] ++ r.2)
  else
    let req : ApprovalData := ⟨approvalMessage fileName, enrichedPrompt, prompt⟩
    (applyActions s1 [.setApproval (some req)], noteActs ++ [.setApproval (some req)])

/-- `submitQuery(prompt)`.  No filename token: the raw prompt goes straight
to dispatch.  A token resolving to a file: enrich under the budget then
gate.  A token that resolves to nothing: synthesize the not-found prompt
and gate.  (A `dirHit` would make `readFileSync` throw before any state
write — unreachable for regex-produced tokens, see
`token_notMem_ignoreDirs`.) -/
def submitQuery (env : Env) (s : AppState) (prompt : String) : AppState × List Action :=
  match firstFileToken prompt with
  | none => sendQueryToModel env s prompt prompt
  | some fileName =>
    match searchList fileName env.cwd env.fs with
    | some (.dirHit _) => (s, [])
    | some (.fileHit fullPath fileContent) =>
      let (enrichedPrompt, notes) := enrichForFound prompt fileName fullPath fileContent
      gateAndDispatch env s prompt fileName (some fullPath) enrichedPrompt notes
    | none =>
      gateAndDispatch env s prompt fileName none (notFoundPrompt fileName) []

/-- `handleFinalSubmit`: trim, drop blank submissions, pass the trimmed
text on.  JavaScript `trim` is modelled as stripping leading and trailing
whitespace characters. -/
def jsTrim (s : String) : String :=
  String.mk (((s.data.dropWhile Char.isWhitespace).reverse.dropWhile
    Char.isWhitespace).reverse)

/-- The final-submit handler wired to the input prompt. -/
def handleFinalSubmit (env : Env) (s : AppState) (submittedValue : String) :
    AppState × List Action :=
  let trimmedValue := jsTrim submittedValue
  if trimmedValue.length > 0 then submitQuery env s trimmedValue else (s, [])

/-! ## Top-level input events

`InputPrompt` (and with it `handleFinalSubmit`) is only rendered while
`isInputActive`, i.e. while streaming is `Idle` and no approval is pending;
the approval `useInput` listener is active exactly while a request is
pending; the always-active listener provides Ctrl+A autopilot toggling.
The exit-debounce keys drive the separate `ExitPressState` machine below. -/

/-- The modelled input events. -/
inductive Event where
  | submitInput (raw : String)
  | approvalKey (input : String) (ret : Bool)
  | ctrlA
deriving DecidableEq, Repr

/-- The cancellation notice recorded on deny. -/
def cancelledEntry : HistoryEntry := ⟨.info, "Action cancelled."⟩

/-- JavaScript `toLowerCase()`, modelled characterwise. -/
def jsToLower (s : String) : String := String.mk (s.data.map Char.toLower)

/-- One top-level event step. -/
def step (env : Env) (s : AppState) : Event → AppState × List Action
  | .submitInput raw =>
    if s.streaming = .idle ∧ s.approval = none then handleFinalSubmit env s raw
    else (s, [])
  | .approvalKey input ret =>
    match s.approval with
    | none => (s, [])
    | some req =>
      if ret || jsToLower input == "y" then
        let s1 := applyActions s [.setApproval none]
        let (s2, tr) := sendQueryToModel env s1 req.enriched req.original
        (s2, .setApproval none :: tr)
      else if jsToLower input == "n" then
        let acts := [Action.setApproval none, .append cancelledEntry]
        (applyActions s acts, acts)
      else (s, [])
  | .ctrlA =>
    let newMode := !s.isAutopilot
    let acts := [Action.toggleAutopilot,
      .append ⟨.info, "Autopilot mode is now " ++ (if newMode then "ON" else "OFF") ++ "."⟩]
    (applyActions s acts, acts)

/-! ## Exit confirmation debouncer (`handleExit`)

One `ExitPressState` per monitored key.  Time is explicit: the timer set by
the first press carries its absolute deadline, and `expireTimer` applies the
`setTimeout` callback when an event is handled strictly after the deadline
(`setTimeout` never fires early; at the exact boundary the ordering is a
race, and no claim depends on it). -/

/-- `{pressedOnce, timerHandle}` for one exit key; the handle carries the
absolute expiry time (press time + 1000 ms). -/
structure ExitPressState where
  pressedOnce : Bool
  timerDeadline : Option Nat
deriving DecidableEq, Repr

/-- `CTRL_EXIT_PROMPT_DURATION_MS`. -/
def CTRL_EXIT_PROMPT_DURATION_MS : Nat := 1000

/-- Initial state: not pressed, no timer. -/
def initialExitState : ExitPressState := ⟨false, none⟩

/-- The `setTimeout` callback: past the deadline, reset `pressedOnce` and
discard the handle. -/
def expireTimer (now : Nat) (s : ExitPressState) : ExitPressState :=
  match s.timerDeadline with
  | some d => if d < now then ⟨false, none⟩ else s
  | none => s

/-- `handleExit` at time `now`: after any pending expiry, a second press
cancels the timer and quits (`handleSlashCommand('/quit')`, reported as the
boolean); a first press records `pressedOnce` and arms the timer. -/
def handleExitStep (now : Nat) (s0 : ExitPressState) : ExitPressState × Bool :=
  let s := expireTimer now s0
  if s.pressedOnce then (⟨s.pressedOnce, none⟩, true)
  else (⟨true, some (now + CTRL_EXIT_PROMPT_DURATION_MS)⟩, false)

/-! ## History deduplicator (the `userMessages` effect) -/

/-- The loop body of the deduplication `useEffect`: each element of
`combined` from index 1 on is kept iff it differs from its predecessor *in
the original array* (`combined[i] !== combined[i-1]`). -/
def dedupGo (prev : String) : List String → List String
  | [] => []
  | y :: ys => if y ≠ prev then y :: dedupGo y ys else dedupGo y ys

/-- The deduplication loop: the first element is always pushed. -/
def dedupAdjacent : List String → List String
  | [] => []
  | x :: xs => x :: dedupGo x xs

/-- The whole effect: live user entries of the history, newest first
(`filter(type user).map(text).reverse()`), then the persisted prior-session
log, deduplicated and reversed before publication. -/
def computeUserMessages (history : List HistoryEntry) (past : List String) :
    List String :=
  let current := ((history.filter fun i => i.type = MessageType.user).map
    (·.text)).reverse
  let combined := current ++ past
  (dedupAdjacent combined).reverse

/-- The spec's own description of the deduplication, stated independently
for the refinement proof: keep the head, and keep every later entry that
differs from its immediate predecessor in the concatenated order. -/
def removeAdjacentDups : List String → List String
  | [] => []
  | x :: xs =>
    x :: (xs.zip (x :: xs)).filterMap fun p => if p.1 ≠ p.2 then some p.1 else none

/-! ## Startup model listing (`fetchModels`) -/

/-- An element of the model-listing `data` array. -/
structure ModelEntry where
  id : String
deriving DecidableEq, Repr

/-- A 2xx model-listing body: the `data` field may be absent (`none`). -/
structure ModelsBody where
  data : Option (List ModelEntry)
deriving DecidableEq, Repr

/-- What the startup `fetch` of `/v1/models` did. -/
inductive ModelsOutcome where
  | ok (body : ModelsBody)
  | httpError
  | netError
deriving DecidableEq, Repr

/-- The error entry recorded by the `catch` of `fetchModels`. -/
def lmStudioError : HistoryEntry :=
  ⟨.error, "Could not connect to LM Studio at http://127.0.0.1:1234. Please ensure the server is running."⟩

/-- `fetchModels`: on success take `data.data || []`, select the first
model if any; a non-ok status or a thrown error is caught and recorded.
Returns (models, selectedModel, appended history entries). -/
def fetchModels (outcome : ModelsOutcome) :
    List ModelEntry × Option String × List HistoryEntry :=
  match outcome with
  | .ok body =>
    let availableModels := body.data.getD []
    (availableModels, availableModels.head?.map (·.id), [])
  | .httpError => ([], none, [lmStudioError])
  | .netError => ([], none, [lmStudioError])

/-! ## Helper lemmas -/

/-- The loop of the deduplication effect agrees with the spec's
"remove entries equal to their immediate predecessor" description. -/
theorem dedupGo_eq_filterMap (prev : String) (ys : List String) :
    dedupGo prev ys =
      (ys.zip (prev :: ys)).filterMap fun p => if p.1 ≠ p.2 then some p.1 else none := by
  induction ys generalizing prev with
  | nil => rfl
  | cons y ys ih =>
    by_cases h : y = prev
    · subst h
      simp [dedupGo, List.zip, ih]
    · simp [dedupGo, List.zip, ih, h]

/-- The full deduplication loop agrees with the spec description. -/
theorem dedupAdjacent_eq (l : List String) :
    dedupAdjacent l = removeAdjacentDups l := by
  cases l with
  | nil => rfl
  | cons x xs => simp [dedupAdjacent, removeAdjacentDups, dedupGo_eq_filterMap]

/-! ## C2: history deduplication -/

/-- C2: the published recall list is the live user entries (newest first)
followed by the persisted log, with entries equal to their immediate
predecessor in that concatenation removed, then reversed; on live
`["a","b","a"]` and persisted `["a","c"]` this yields `["c","a","b","a"]`. -/
theorem c2_dedup_published (history : List HistoryEntry) (past : List String) :
    computeUserMessages history past =
      (removeAdjacentDups
        ((((history.filter fun i => i.type = MessageType.user).map (·.text)).reverse)
          ++ past)).reverse
    ∧ computeUserMessages [⟨.user, "a"⟩, ⟨.user, "b"⟩, ⟨.user, "a"⟩] ["a", "c"]
        = ["c", "a", "b", "a"] := by
  constructor
  · simp [computeUserMessages, dedupAdjacent_eq]
  · decide

/-! ## C5: exit confirmation debouncer -/

/-- C5: from the initial state a first signal at `t1` sets `pressedOnce`,
arms a timer expiring at `t1 + 1000`, and does not terminate; an expiry
strictly after the deadline resets the state; a second signal while
`pressedOnce` is still true (at most 1000 ms later) cancels the timer and
terminates; a second signal more than 1000 ms later behaves exactly like a
fresh first signal and does not terminate. -/
theorem c5_exit_debounce (t1 t2 : Nat) :
    handleExitStep t1 initialExitState = (⟨true, some (t1 + 1000)⟩, false)
    ∧ (∀ t, t1 + 1000 < t →
        expireTimer t ⟨true, some (t1 + 1000)⟩ = initialExitState)
    ∧ (t2 ≤ t1 + 1000 →
        handleExitStep t2 ⟨true, some (t1 + 1000)⟩ = (⟨true, none⟩, true))
    ∧ (t1 + 1000 < t2 →
        handleExitStep t2 ⟨true, some (t1 + 1000)⟩
            = handleExitStep t2 initialExitState
          ∧ (handleExitStep t2 ⟨true, some (t1 + 1000)⟩).2 = false) := by
  refine ⟨rfl, ?_, ?_, ?_⟩
  · intro t ht
    simp [expireTimer, ht, initialExitState]
  · intro h
    have h' : ¬ t1 + 1000 < t2 := by omega
    simp [handleExitStep, expireTimer, CTRL_EXIT_PROMPT_DURATION_MS, h']
  · intro h
    constructor
    · simp [handleExitStep, expireTimer, initialExitState, h]
    · simp [handleExitStep, expireTimer, h]

/-- Witness for C5 at `t1 = 0`: a second signal at 400 ms terminates, a
second signal at 1400 ms behaves as an independent first signal. -/
theorem c5_exit_debounce_witness :
    handleExitStep 400 ⟨true, some (0 + 1000)⟩ = (⟨true, none⟩, true)
    ∧ handleExitStep 1400 ⟨true, some (0 + 1000)⟩
        = handleExitStep 1400 initialExitState :=
  ⟨(c5_exit_debounce 0 400).2.2.1 (by decide),
   ((c5_exit_debounce 0 1400).2.2.2 (by decide)).1⟩

/-! ## Action classifiers used by the dispatch claims -/

/-- Is this action a network request? -/
def isRequest : Action → Bool
  | .request _ _ => true
  | _ => false

/-- Is this action the recording of an error entry? -/
def isErrorAppend : Action → Bool
  | .append e => e.type = .error
  | _ => false

/-- Is this action the recording of a user entry? -/
def isUserAppend : Action → Bool
  | .append e => e.type = .user
  | _ => false

/-- Concrete environment used by the witnesses below. -/
def wEnv : Env := ⟨[.file "readme.md" "hi"], ".", .netError "refused"⟩

/-- Concrete idle state with a selected model, used by the witnesses. -/
def wState : AppState := ⟨[], .idle, none, some "m1", false⟩

/-- Concrete idle state with no model selected, used by the witnesses. -/
def wStateNoModel : AppState := ⟨[], .idle, none, none, false⟩

/-! ## C8: dispatch with no selected model fails fast -/

/-- C8: with an empty selected model, the dispatch trace is exactly the one
error entry — so exactly one error entry is recorded, no network request is
issued, no user entry is appended, and streaming is never set to
`Responding`. -/
theorem c8_no_model_fail_fast (s : AppState) (outcome : NetOutcome)
    (p o : String) (h : s.selectedModel = none) :
    sendQueryTrace s outcome p o = [.append noModelError]
    ∧ (sendQueryTrace s outcome p o).countP isErrorAppend = 1
    ∧ (sendQueryTrace s outcome p o).countP isRequest = 0
    ∧ (sendQueryTrace s outcome p o).countP isUserAppend = 0
    ∧ Action.setStreaming .responding ∉ sendQueryTrace s outcome p o := by
  have htr : sendQueryTrace s outcome p o = [.append noModelError] := by
    simp [sendQueryTrace, h]
  rw [htr]
  refine ⟨rfl, ?_, ?_, ?_, ?_⟩ <;> decide

/-- Witness for C8 at a concrete model-less state. -/
theorem c8_no_model_fail_fast_witness :
    sendQueryTrace wStateNoModel (.netError "refused") "p" "p" = [.append noModelError] :=
  (c8_no_model_fail_fast wStateNoModel (.netError "refused") "p" "p" rfl).1

/-! ## C9: startup model listing -/

/-- C9 counterexample: a successful response whose body lacks the `data`
field yields zero models and no selection, but — contrary to the claim —
records no error entry at all (the `catch` never runs). -/
theorem c9_counterexample :
    (fetchModels (.ok ⟨none⟩)).1 = []
    ∧ (fetchModels (.ok ⟨none⟩)).2.1 = none
    ∧ ¬ ∃ e ∈ (fetchModels (.ok ⟨none⟩)).2.2, e.type = .error := by
  refine ⟨rfl, rfl, ?_⟩
  simp [fetchModels]

/-- C9 amended: a failed call (unreachable backend or non-success status)
yields zero models, no selection and one recorded error entry; an absent
list field on a successful call yields zero models and no selection but
records no error entry. -/
theorem c9_models_amended (outcome : ModelsOutcome)
    (h : outcome = .httpError ∨ outcome = .netError) :
    fetchModels outcome = ([], none, [lmStudioError])
    ∧ lmStudioError.type = .error
    ∧ fetchModels (.ok ⟨none⟩) = ([], none, []) := by
  rcases h with h | h <;> subst h <;> exact ⟨rfl, rfl, rfl⟩

/-- Witness for C9 at the non-success-status outcome. -/
theorem c9_models_amended_witness :
    fetchModels .httpError = ([], none, [lmStudioError]) :=
  (c9_models_amended .httpError (Or.inl rfl)).1

/-! ## C10: blank submissions are dropped, others are trimmed -/

/-- C10: a submission that is empty or all whitespace leaves the state
untouched and performs no action (no request, no approval, history
unchanged); a non-blank submission reaches `submitQuery` with exactly its
trimmed text. -/
theorem c10_final_submit (env : Env) (s : AppState) (submittedValue : String) :
    ((∀ c ∈ submittedValue.data, c.isWhitespace) →
      handleFinalSubmit env s submittedValue = (s, []))
    ∧ (jsTrim submittedValue ≠ "" →
        handleFinalSubmit env s submittedValue = submitQuery env s (jsTrim submittedValue)) := by
  constructor
  · intro h
    have hdrop : submittedValue.data.dropWhile Char.isWhitespace = [] :=
      List.dropWhile_eq_nil_iff.mpr h
    have htrim : jsTrim submittedValue = "" := by
      simp [jsTrim, hdrop]
    simp [handleFinalSubmit, htrim]
  · intro h
    have hne : (jsTrim submittedValue).data ≠ [] := by
      intro hd
      exact h (String.ext (by simp [hd]))
    have hlen : 0 < (jsTrim submittedValue).length :=
      List.length_pos.mpr hne
    simp [handleFinalSubmit, hlen]

/-- Witness for C10: an all-whitespace submission is dropped; a padded
submission dispatches its trimmed text. -/
theorem c10_final_submit_witness :
    handleFinalSubmit wEnv wState " \t " = (wState, [])
    ∧ handleFinalSubmit wEnv wState " hi " = submitQuery wEnv wState "hi" := by
  constructor
  · exact (c10_final_submit wEnv wState " \t ").1 (by decide)
  · have h := (c10_final_submit wEnv wState " hi ").2 (by decide)
    have : jsTrim " hi " = "hi" := by decide
    rwa [this] at h

/-- Folding actions distributes over list append. -/
theorem applyActions_append (s : AppState) (l1 l2 : List Action) :
    applyActions s (l1 ++ l2) = applyActions (applyActions s l1) l2 := by
  simp [applyActions, List.foldl_append]

/-- A trace ending in `setStreaming Idle` leaves streaming at `Idle`. -/
theorem streaming_after_final_idle (s : AppState) (l : List Action) :
    (applyActions s (l ++ [.setStreaming .idle])).streaming = .idle := by
  rw [applyActions_append]
  rfl

/-! ## C6: streaming always returns to Idle -/

/-- C6: whatever the dispatch did — success, non-2xx, malformed body,
network/timeout error, or the fail-fast path for a missing model — the
state returned by `sendQueryToModel` has streaming back at `Idle` (the
model is total, so no failure escapes the call). -/
theorem c6_streaming_idle (env : Env) (s : AppState) (p o : String)
    (h : s.streaming = .idle) :
    (sendQueryToModel env s p o).1.streaming = .idle := by
  cases hm : s.selectedModel with
  | none =>
    simp [sendQueryToModel, sendQueryTrace, hm, applyActions, applyAction, h]
  | some m =>
    have htr : sendQueryTrace s env.outcome p o =
        ((if s.history.getLast?.map (·.text) = some o then []
          else [.append ⟨.user, o⟩]) ++
          ([.setStreaming .responding, .request m p] ++ responseActions env.outcome))
          ++ [.setStreaming .idle] := by
      simp [sendQueryTrace, hm]
    show (applyActions s (sendQueryTrace s env.outcome p o)).streaming = .idle
    rw [htr]
    exact streaming_after_final_idle ..

/-- Witness for C6 at a concrete idle state and a failing outcome. -/
theorem c6_streaming_idle_witness :
    (sendQueryToModel wEnv wState "p" "p").1.streaming = .idle :=
  c6_streaming_idle wEnv wState "p" "p" rfl

/-! ## C7: the user line is recorded before the request is issued -/

/-- The post-response actions only ever append assistant or error entries. -/
theorem responseActions_no_user (outcome : NetOutcome) (e : HistoryEntry)
    (h : Action.append e ∈ responseActions outcome) : e.type ≠ .user := by
  cases outcome with
  | ok body =>
    cases hc : parseChoiceContent body with
    | none =>
      simp [responseActions, hc] at h
      simp [h, connectionError]
    | some content =>
      simp [responseActions, hc] at h
      simp [h]
  | httpError text =>
    simp [responseActions] at h
    simp [h, connectionError]
  | netError msg =>
    simp [responseActions] at h
    simp [h, connectionError]

/-- C7: with a model selected, if the submitted text is not already the
most recent history entry then the trace appends the user line first and
only later issues the request; if it is the most recent entry, the trace
starts directly at the streaming flag and contains no user append at all. -/
theorem c7_user_line_before_request (s : AppState) (outcome : NetOutcome)
    (p o m : String) (hm : s.selectedModel = some m) :
    (s.history.getLast?.map (·.text) ≠ some o →
      sendQueryTrace s outcome p o =
        .append ⟨.user, o⟩ :: .setStreaming .responding :: .request m p ::
          (responseActions outcome ++ [.setStreaming .idle]))
    ∧ (s.history.getLast?.map (·.text) = some o →
        sendQueryTrace s outcome p o =
          .setStreaming .responding :: .request m p ::
            (responseActions outcome ++ [.setStreaming .idle])
        ∧ ∀ e, Action.append e ∈ sendQueryTrace s outcome p o → e.type ≠ .user) := by
  constructor
  · intro h
    simp [sendQueryTrace, hm, h]
  · intro h
    have htr : sendQueryTrace s outcome p o =
        .setStreaming .responding :: .request m p ::
          (responseActions outcome ++ [.setStreaming .idle]) := by
      simp [sendQueryTrace, hm, h]
    refine ⟨htr, ?_⟩
    intro e he
    rw [htr] at he
    rcases List.mem_cons.mp he with h1 | he
    · cases h1
    rcases List.mem_cons.mp he with h1 | he
    · cases h1
    rcases List.mem_append.mp he with h1 | h1
    · exact responseActions_no_user outcome e h1
    · cases List.mem_singleton.mp h1

/-- Witness for C7: from an empty history the user line precedes the
request in the trace. -/
theorem c7_user_line_before_request_witness :
    sendQueryTrace wState (.netError "refused") "p" "p" =
      .append ⟨.user, "p"⟩ :: .setStreaming .responding :: .request "m1" "p" ::
        (responseActions (.netError "refused") ++ [.setStreaming .idle]) :=
  (c7_user_line_before_request wState (.netError "refused") "p" "p" "m1" rfl).1
    (by decide)

/-- The post-response actions never write the approval slot. -/
theorem responseActions_no_setApproval (outcome : NetOutcome) (x : Option ApprovalData) :
    Action.setApproval x ∉ responseActions outcome := by
  cases outcome with
  | ok body => cases hc : parseChoiceContent body <;> simp [responseActions, hc]
  | httpError text => simp [responseActions]
  | netError msg => simp [responseActions]

/-- The post-response actions issue no network request. -/
theorem responseActions_countP_isRequest (outcome : NetOutcome) :
    (responseActions outcome).countP isRequest = 0 := by
  cases outcome with
  | ok body => cases hc : parseChoiceContent body <;> simp [responseActions, hc, isRequest]
  | httpError text => simp [responseActions, isRequest]
  | netError msg => simp [responseActions, isRequest]

/-- A dispatch trace never writes the approval slot. -/
theorem sendQueryTrace_no_setApproval (s : AppState) (outcome : NetOutcome)
    (p o : String) (x : Option ApprovalData) :
    Action.setApproval x ∉ sendQueryTrace s outcome p o := by
  intro hmem
  cases hm : s.selectedModel with
  | none => simp [sendQueryTrace, hm] at hmem
  | some m =>
    rw [sendQueryTrace, hm] at hmem
    rcases List.mem_append.mp hmem with h1 | h1
    · rcases List.mem_append.mp h1 with h2 | h2
      · rcases List.mem_append.mp h2 with h3 | h3
        · split at h3 <;> simp at h3
        · simp at h3
      · exact responseActions_no_setApproval outcome x h2
    · simp at h1

/-- Actions that never write the approval slot preserve it. -/
theorem applyActions_approval (s : AppState) (l : List Action)
    (h : ∀ x, Action.setApproval x ∉ l) :
    (applyActions s l).approval = s.approval := by
  induction l generalizing s with
  | nil => rfl
  | cons a l ih =>
    have hstep : applyActions s (a :: l) = applyActions (applyAction s a) l := rfl
    rw [hstep, ih _ fun x hx => h x (List.mem_cons_of_mem _ hx)]
    cases a with
    | setApproval x => exact absurd (List.mem_cons_self _ _) (h x)
    | append e => rfl
    | setStreaming st => rfl
    | request mo c => rfl
    | toggleAutopilot => rfl

/-- A dispatch call leaves the approval slot untouched. -/
theorem sendQueryToModel_approval (env : Env) (s : AppState) (p o : String) :
    (sendQueryToModel env s p o).1.approval = s.approval :=
  applyActions_approval s _ fun x => sendQueryTrace_no_setApproval s env.outcome p o x

/-- A dispatch trace with a selected model issues exactly one request. -/
theorem sendQueryTrace_one_request (s : AppState) (outcome : NetOutcome)
    (p o m : String) (hm : s.selectedModel = some m) :
    (sendQueryTrace s outcome p o).countP isRequest = 1 := by
  rw [sendQueryTrace, hm]
  rw [List.countP_append, List.countP_append, List.countP_append]
  rw [responseActions_countP_isRequest]
  split <;> simp [isRequest]

/-! ## C3: the approval gate -/

/-- C3: while a request is pending, denying it clears the slot, records the
cancellation notice and issues no request; approving it clears the slot and
runs the suspended dispatch exactly once (one network request when a model
is selected); and no event can install a different request while one is
pending. -/
theorem c3_approval_gate (env : Env) (s : AppState) (req : ApprovalData)
    (inp : String) (ret : Bool) (e : Event) (hpend : s.approval = some req) :
    (jsToLower inp = "n" → ret = false →
      step env s (.approvalKey inp ret)
        = ({ s with approval := none, history := s.history ++ [cancelledEntry] },
            [.setApproval none, .append cancelledEntry])
      ∧ (step env s (.approvalKey inp ret)).2.countP isRequest = 0)
    ∧ ((ret = true ∨ jsToLower inp = "y") →
        (step env s (.approvalKey inp ret)).1.approval = none
        ∧ (step env s (.approvalKey inp ret)).2
            = .setApproval none ::
                sendQueryTrace { s with approval := none } env.outcome
                  req.enriched req.original
        ∧ (∀ m, s.selectedModel = some m →
            (step env s (.approvalKey inp ret)).2.countP isRequest = 1))
    ∧ ((step env s e).1.approval = none ∨ (step env s e).1.approval = some req) := by
  refine ⟨?_, ?_, ?_⟩
  · intro hn hr
    have hny : (jsToLower inp == "y") = false := by
      rw [hn]; decide
    subst hr
    constructor
    · simp [step, hpend, hny, hn, applyActions, applyAction]
    · simp [step, hpend, hny, hn, isRequest]
  · intro happ
    have hguard : (ret || jsToLower inp == "y") = true := by
      rcases happ with h | h
      · rw [h]; rfl
      · rw [h]; simp
    have hred : step env s (.approvalKey inp ret)
        = ((sendQueryToModel env (applyActions s [Action.setApproval none])
              req.enriched req.original).1,
            Action.setApproval none ::
              (sendQueryToModel env (applyActions s [Action.setApproval none])
                req.enriched req.original).2) := by
      rw [step, hpend]
      simp only [hguard, if_true]
    refine ⟨?_, ?_, ?_⟩
    · rw [hred]
      show (sendQueryToModel env (applyActions s [Action.setApproval none])
        req.enriched req.original).1.approval = none
      rw [sendQueryToModel_approval]
      rfl
    · rw [hred]
      rfl
    · intro m hmod
      rw [hred]
      show (Action.setApproval none ::
        sendQueryTrace (applyActions s [.setApproval none]) env.outcome
          req.enriched req.original).countP isRequest = 1
      rw [List.countP_cons]
      have hmod1 : (applyActions s [.setApproval none]).selectedModel = some m := hmod
      rw [sendQueryTrace_one_request _ env.outcome req.enriched req.original m hmod1]
      simp [isRequest]
  · cases e with
    | submitInput raw =>
      right
      have hcond : ¬ (s.streaming = .idle ∧ s.approval = none) := by
        intro hc
        rw [hpend] at hc
        exact Option.noConfusion hc.2
      simp [step, hcond, hpend]
    | approvalKey inp2 ret2 =>
      rw [step, hpend]
      by_cases hg : (ret2 || jsToLower inp2 == "y") = true
      · left
        simp only [hg, if_true]
        show (sendQueryToModel env (applyActions s [Action.setApproval none])
          req.enriched req.original).1.approval = none
        rw [sendQueryToModel_approval]
        rfl
      · rw [Bool.not_eq_true] at hg
        by_cases hn2 : (jsToLower inp2 == "n") = true
        · left
          simp only [hg, hn2, if_true, Bool.false_eq_true, if_false]
          rfl
        · right
          rw [Bool.not_eq_true] at hn2
          simp only [hg, hn2, Bool.false_eq_true, if_false]
          exact hpend
    | ctrlA =>
      right
      simp [step, applyActions, applyAction, hpend]

/-- A concrete state with a pending approval request, used by the C3
witness. -/
def wPending : AppState := ⟨[], .idle, some ⟨"msg", "e", "o"⟩, some "m1", false⟩

/-- Witness for C3: at the concrete pending state, denying records the
cancellation and issues no request, approving clears the slot, and a
concurrent submission cannot install a new request. -/
theorem c3_approval_gate_witness :
    (step wEnv wPending (.approvalKey "n" false)
        = ({ wPending with
              approval := none,
              history := wPending.history ++ [cancelledEntry] },
            [.setApproval none, .append cancelledEntry])
      ∧ (step wEnv wPending (.approvalKey "n" false)).2.countP isRequest = 0)
    ∧ (step wEnv wPending (.approvalKey "y" false)).1.approval = none
    ∧ ((step wEnv wPending (.submitInput "hi")).1.approval = none
        ∨ (step wEnv wPending (.submitInput "hi")).1.approval = some ⟨"msg", "e", "o"⟩) :=
  ⟨(c3_approval_gate wEnv wPending ⟨"msg", "e", "o"⟩ "n" false .ctrlA rfl).1
      (by decide) rfl,
   ((c3_approval_gate wEnv wPending ⟨"msg", "e", "o"⟩ "y" false .ctrlA rfl).2.1
      (Or.inr (by decide))).1,
   (c3_approval_gate wEnv wPending ⟨"msg", "e", "o"⟩ "n" false
      (.submitInput "hi") rfl).2.2⟩

/-! ## C4: the not-found path does not skip the approval gate -/

/-- C4 counterexample: the prompt `"check missing.txt"` contains a filename
token whose recursive search finds nothing, yet with autopilot off the
pipeline *does* create an ApprovalRequest (carrying the synthesized
not-found prompt) — the claim that the approval gate is skipped in this
case is false on the code. -/
theorem c4_counterexample :
    firstFileToken "check missing.txt" = some "missing.txt"
    ∧ searchList "missing.txt" wEnv.cwd wEnv.fs = none
    ∧ wState.isAutopilot = false
    ∧ (submitQuery wEnv wState "check missing.txt").1.approval
        = some ⟨approvalMessage "missing.txt", notFoundPrompt "missing.txt",
            "check missing.txt"⟩ := by
  refine ⟨by decide, rfl, rfl, ?_⟩
  rfl

/-- C4 amended: on a filename token that resolves to no file, the pipeline
synthesizes the not-found template prompt, but the approval gate is applied
exactly as in the found case: with autopilot off an ApprovalRequest holding
the synthesized prompt is created and nothing is dispatched; with autopilot
on no request slot is touched and the synthesized prompt is dispatched. -/
theorem c4_notfound_gate (env : Env) (s : AppState) (prompt fileName : String)
    (hTok : firstFileToken prompt = some fileName)
    (hMiss : searchList fileName env.cwd env.fs = none) :
    (s.isAutopilot = false →
      (submitQuery env s prompt).1.approval
          = some ⟨approvalMessage fileName, notFoundPrompt fileName, prompt⟩
      ∧ (submitQuery env s prompt).2.countP isRequest = 0)
    ∧ (s.isAutopilot = true →
        (submitQuery env s prompt).1.approval = s.approval
        ∧ ∀ m, s.selectedModel = some m →
            Action.request m (notFoundPrompt fileName) ∈ (submitQuery env s prompt).2) := by
  have hsub : submitQuery env s prompt
      = gateAndDispatch env s prompt fileName none (notFoundPrompt fileName) [] := by
    simp only [submitQuery, hTok, hMiss]
  constructor
  · intro hA
    rw [hsub]
    constructor
    · simp [gateAndDispatch, hA, applyActions, applyAction]
    · simp [gateAndDispatch, hA, isRequest]
  · intro hA
    rw [hsub]
    have hga : gateAndDispatch env s prompt fileName none (notFoundPrompt fileName) []
        = ((sendQueryToModel env
              (applyActions (applyActions s []) [.append (autopilotInfo none fileName)])
              (notFoundPrompt fileName) prompt).1,
            [] ++ [Action.append (autopilotInfo none fileName)] ++
              (sendQueryToModel env
                (applyActions (applyActions s []) [.append (autopilotInfo none fileName)])
                (notFoundPrompt fileName) prompt).2) := by
      simp only [gateAndDispatch, hA, if_true, List.map_nil]
    rw [hga]
    constructor
    · show (sendQueryToModel env _ _ _).1.approval = s.approval
      rw [sendQueryToModel_approval]
      rfl
    · intro m hm
      show Action.request m (notFoundPrompt fileName) ∈
        [] ++ [Action.append (autopilotInfo none fileName)] ++
          sendQueryTrace
            (applyActions (applyActions s []) [.append (autopilotInfo none fileName)])
            env.outcome (notFoundPrompt fileName) prompt
      have hm2 : (applyActions (applyActions s [])
          [Action.append (autopilotInfo none fileName)]).selectedModel = some m := hm
      rw [sendQueryTrace, hm2]
      apply List.mem_append_right
      apply List.mem_append_left
      apply List.mem_append_left
      apply List.mem_append_right
      simp

/-- Witness for C4's amended theorem at the concrete not-found instance. -/
theorem c4_notfound_gate_witness :
    (submitQuery wEnv wState "check missing.txt").1.approval
        = some ⟨approvalMessage "missing.txt", notFoundPrompt "missing.txt",
            "check missing.txt"⟩
    ∧ (submitQuery wEnv wState "check missing.txt").2.countP isRequest = 0 :=
  (c4_notfound_gate wEnv wState "check missing.txt" "missing.txt"
      (by decide) rfl).1 rfl

/-! ## Helper lemmas for the enrichment claims -/

/-- A list is a prefix of itself extended by anything. -/
theorem listStartsWith_self_append (pat q : List Char) :
    listStartsWith pat (pat ++ q) = true := by
  induction pat with
  | nil => rfl
  | cons p ps ih => simp [listStartsWith, ih]

/-- First-occurrence replacement on a string containing the pattern yields
the replacement embedded between some prefix and suffix. -/
theorem listReplaceFirst_occurs (pat repl : List Char) (hpat : pat ≠ []) :
    ∀ p q : List Char,
      ∃ p2 q2, listReplaceFirst (p ++ (pat ++ q)) pat repl = p2 ++ repl ++ q2 := by
  intro p
  induction p with
  | nil =>
    intro q
    refine ⟨[], (pat ++ q).drop pat.length, ?_⟩
    cases pat with
    | nil => exact absurd rfl hpat
    | cons pc ps =>
      have hsw : listStartsWith (pc :: ps) (pc :: (ps ++ q)) = true :=
        listStartsWith_self_append (pc :: ps) q
      rw [List.nil_append]
      show listReplaceFirst (pc :: (ps ++ q)) (pc :: ps) repl = _
      simp only [listReplaceFirst, hsw, if_true, List.nil_append, List.cons_append]
  | cons c p ih =>
    intro q
    show ∃ p2 q2, listReplaceFirst (c :: (p ++ (pat ++ q))) pat repl = p2 ++ repl ++ q2
    by_cases hs : listStartsWith pat (c :: (p ++ (pat ++ q))) = true
    · refine ⟨[], (c :: (p ++ (pat ++ q))).drop pat.length, ?_⟩
      simp only [listReplaceFirst, hs, if_true, List.nil_append]
    · obtain ⟨p2, q2, hih⟩ := ih q
      refine ⟨c :: p2, q2, ?_⟩
      rw [Bool.not_eq_true] at hs
      simp only [listReplaceFirst, hs, Bool.false_eq_true, if_false, hih, List.cons_append]

/-- String-level version: a string that decomposes around the pattern is
rewritten to one that embeds the replacement. -/
theorem jsReplaceFirst_embeds (s pre suf pat repl : String)
    (hdecomp : s.data = pre.data ++ pat.data ++ suf.data) (hpat : pat.data ≠ []) :
    ∃ preS postS : String, jsReplaceFirst s pat repl = preS ++ repl ++ postS := by
  obtain ⟨p2, q2, h⟩ := listReplaceFirst_occurs pat.data repl.data hpat pre.data suf.data
  refine ⟨String.mk p2, String.mk q2, ?_⟩
  apply String.ext
  show listReplaceFirst s.data pat.data repl.data = (String.mk p2 ++ repl ++ String.mk q2).data
  rw [hdecomp, List.append_assoc, h]
  simp [String.data_append]

/-- The template decomposes around the `{CONTENT}` placeholder. -/
theorem baseTemplate_decomp (p f : String) :
    (baseTemplate p f).data
      = ("The user wants me to do the following: \"" ++ p ++
          "\". I have found the relevant file at \"" ++ f ++
          "\", and its content is:\n```\n").data
        ++ contentPlaceholder.data ++ ("\n```\nPlease proceed." : String).data := by
  simp [baseTemplate, String.data_append, List.append_assoc]

/-- The template's length is its fixed 134 characters (placeholder
included) plus the two interpolations. -/
theorem baseTemplate_length (p f : String) :
    (baseTemplate p f).length = 134 + p.length + f.length := by
  simp only [baseTemplate, String.length_append]
  have h1 : ("The user wants me to do the following: \"" : String).length = 40 := by decide
  have h2 : ("\". I have found the relevant file at \"" : String).length = 38 := by decide
  have h3 : ("\", and its content is:\n```\n" : String).length = 27 := by decide
  have h4 : contentPlaceholder.length = 9 := by decide
  have h5 : ("\n```\nPlease proceed." : String).length = 20 := by decide
  rw [h1, h2, h3, h4, h5]
  omega

/-- The number of times a given entry is appended by a trace. -/
def countEntry (e : HistoryEntry) (l : List Action) : Nat :=
  l.countP fun a => a == Action.append e

/-- Every entry appended after the response is an assistant or error entry. -/
theorem responseActions_types (outcome : NetOutcome) (e : HistoryEntry)
    (h : Action.append e ∈ responseActions outcome) :
    e.type = .gemini ∨ e.type = .error := by
  cases outcome with
  | ok body =>
    cases hc : parseChoiceContent body with
    | none =>
      simp [responseActions, hc] at h
      simp [h, connectionError]
    | some content =>
      simp [responseActions, hc] at h
      simp [h]
  | httpError text =>
    simp [responseActions] at h
    simp [h, connectionError]
  | netError msg =>
    simp [responseActions] at h
    simp [h, connectionError]

/-- Every entry appended by a dispatch trace is a user, assistant or error
entry — never an informational one. -/
theorem sendQueryTrace_append_not_info (s : AppState) (o : NetOutcome)
    (p orig : String) (e : HistoryEntry)
    (h : Action.append e ∈ sendQueryTrace s o p orig) : e.type ≠ .info := by
  cases hm : s.selectedModel with
  | none =>
    rw [sendQueryTrace, hm] at h
    simp at h
    simp [h, noModelError]
  | some m =>
    rw [sendQueryTrace, hm] at h
    rcases List.mem_append.mp h with h1 | h1
    · rcases List.mem_append.mp h1 with h2 | h2
      · rcases List.mem_append.mp h2 with h3 | h3
        · split at h3
          · simp at h3
          · simp at h3
            simp [h3]
        · simp at h3
      · rcases responseActions_types o e h2 with ht | ht <;> simp [ht]
    · simp at h1

/-- A dispatch trace never appends any informational entry. -/
theorem countEntry_sendQueryTrace_info (s : AppState) (o : NetOutcome)
    (p orig t : String) :
    countEntry ⟨.info, t⟩ (sendQueryTrace s o p orig) = 0 := by
  rw [countEntry, List.countP_eq_zero]
  intro a ha hpa
  rw [beq_iff_eq] at hpa
  subst hpa
  exact sendQueryTrace_append_not_info s o p orig _ ha rfl

/-- Two strings with different first characters differ. -/
theorem string_ne_of_head_ne (a b : String) (c1 c2 : Char)
    (ha : a.data.head? = some c1) (hb : b.data.head? = some c2)
    (hne : c1 ≠ c2) : a ≠ b := by
  intro h
  rw [h, hb] at ha
  exact hne (Option.some.injEq .. ▸ ha).symm

/-- The autopilot informational text never equals a truncation warning
(their first characters differ). -/
theorem autopilotInfo_text_ne_truncWarn (fp? : Option String) (fn y : String) :
    (autopilotInfo fp? fn).text ≠ truncWarn y := by
  apply string_ne_of_head_ne _ _ 'A' '⚠'
  · show (("Autopilot ON. " : String) ++ _).data.head? = some 'A'
    rw [String.data_append]
    rw [show ("Autopilot ON. " : String).data = 'A' :: ("utopilot ON. " : String).data from rfl]
    rfl
  · show (("⚠️ Warning: The file \"" : String) ++ _ ++ _).data.head? = some '⚠'
    rw [String.data_append, String.data_append]
    rw [show ("⚠️ Warning: The file \"" : String).data
      = '⚠' :: ("️ Warning: The file \"" : String).data from rfl]
    rfl
  · decide

/-! ## C1: character budget and truncation -/

/-- C1 (amended with the nonnegativity proviso): for a prompt whose
filename token resolves to a file, the budget is
`16384 − (templateLength − placeholderLength)`; when the budget is
nonnegative and the file content exceeds it, the content embedded in the
enriched prompt (the prompt dispatched, or suspended for dispatch behind
the approval gate) has length exactly the budget, and the pipeline records
exactly one truncation notice. -/
theorem c1_budget_truncation (env : Env) (s : AppState)
    (prompt fileName fullPath fileContent : String)
    (hTok : firstFileToken prompt = some fileName)
    (hHit : searchList fileName env.cwd env.fs = some (.fileHit fullPath fileContent))
    (hPos : 0 ≤ computeBudget prompt fullPath)
    (hBig : (fileContent.length : Int) > computeBudget prompt fullPath) :
    computeBudget prompt fullPath
        = 16384 - (((baseTemplate prompt fullPath).length : Int) - 9)
    ∧ ((truncatedContent prompt fullPath fileContent).length : Int)
        = computeBudget prompt fullPath
    ∧ (∃ pre post : String,
        (enrichForFound prompt fileName fullPath fileContent).1
          = pre ++ truncatedContent prompt fullPath fileContent ++ post)
    ∧ (enrichForFound prompt fileName fullPath fileContent).2
        = [⟨.info, truncWarn fileName⟩]
    ∧ countEntry ⟨.info, truncWarn fileName⟩ (submitQuery env s prompt).2 = 1 := by
  have hcp : (contentPlaceholder.length : Int) = 9 := by decide
  have hmax : (MAX_CONTEXT_TOKENS * 4 : Int) = 16384 := by decide
  have hE : enrichForFound prompt fileName fullPath fileContent
      = (jsReplaceFirst (baseTemplate prompt fullPath) contentPlaceholder
          (truncatedContent prompt fullPath fileContent),
         [⟨.info, truncWarn fileName⟩]) := by
    rw [show enrichForFound prompt fileName fullPath fileContent
        = (jsReplaceFirst (baseTemplate prompt fullPath) contentPlaceholder
            (truncatedContent prompt fullPath fileContent),
           if (fileContent.length : Int) > computeBudget prompt fullPath
           then [⟨.info, truncWarn fileName⟩] else []) from rfl]
    rw [if_pos hBig]
  refine ⟨?_, ?_, ?_, ?_, ?_⟩
  · rw [computeBudget, hcp, hmax]
  · have htr : truncatedContent prompt fullPath fileContent
        = String.mk (fileContent.data.take (computeBudget prompt fullPath).toNat) := by
      rw [truncatedContent, if_pos hBig]
    rw [htr, String.length_mk, List.length_take]
    have hfl : fileContent.length = fileContent.data.length := rfl
    rw [hfl] at hBig
    omega
  · rw [hE]
    exact jsReplaceFirst_embeds _
      ("The user wants me to do the following: \"" ++ prompt ++
        "\". I have found the relevant file at \"" ++ fullPath ++
        "\", and its content is:\n```\n")
      ("\n```\nPlease proceed.") _ _
      (baseTemplate_decomp prompt fullPath) (by decide)
  · rw [hE]
  · have hsub : submitQuery env s prompt
        = gateAndDispatch env s prompt fileName (some fullPath)
            (jsReplaceFirst (baseTemplate prompt fullPath) contentPlaceholder
              (truncatedContent prompt fullPath fileContent))
            [⟨.info, truncWarn fileName⟩] := by
      simp only [submitQuery, hTok, hHit, hE]
    rw [hsub]
    have hbne : (Action.append (autopilotInfo (some fullPath) fileName)
        == Action.append (⟨.info, truncWarn fileName⟩ : HistoryEntry)) = false := by
      rw [beq_eq_false_iff_ne]
      intro hco
      exact autopilotInfo_text_ne_truncWarn (some fullPath) fileName fileName
        (congrArg HistoryEntry.text (Action.append.inj hco))
    cases hA : s.isAutopilot with
    | false =>
      have hga : (gateAndDispatch env s prompt fileName (some fullPath)
          (jsReplaceFirst (baseTemplate prompt fullPath) contentPlaceholder
            (truncatedContent prompt fullPath fileContent))
          [⟨.info, truncWarn fileName⟩]).2
          = [Action.append ⟨.info, truncWarn fileName⟩] ++
              [Action.setApproval (some ⟨approvalMessage fileName,
                jsReplaceFirst (baseTemplate prompt fullPath) contentPlaceholder
                  (truncatedContent prompt fullPath fileContent), prompt⟩)] := by
        simp only [gateAndDispatch, hA, Bool.false_eq_true, if_false,
          List.map_cons, List.map_nil]
      rw [hga, countEntry, List.countP_append]
      simp [List.countP_cons]
    | true =>
      have hga : (gateAndDispatch env s prompt fileName (some fullPath)
          (jsReplaceFirst (baseTemplate prompt fullPath) contentPlaceholder
            (truncatedContent prompt fullPath fileContent))
          [⟨.info, truncWarn fileName⟩]).2
          = [Action.append ⟨.info, truncWarn fileName⟩] ++
              [Action.append (autopilotInfo (some fullPath) fileName)] ++
              sendQueryTrace
                (applyActions
                  (applyActions s [Action.append ⟨.info, truncWarn fileName⟩])
                  [Action.append (autopilotInfo (some fullPath) fileName)])
                env.outcome
                (jsReplaceFirst (baseTemplate prompt fullPath) contentPlaceholder
                  (truncatedContent prompt fullPath fileContent)) prompt := by
        simp only [gateAndDispatch, hA, if_true, List.map_cons, List.map_nil]
        rfl
      rw [hga, countEntry, List.countP_append, List.countP_append]
      rw [show (sendQueryTrace
          (applyActions (applyActions s [Action.append ⟨.info, truncWarn fileName⟩])
            [Action.append (autopilotInfo (some fullPath) fileName)]) env.outcome
          (jsReplaceFirst (baseTemplate prompt fullPath) contentPlaceholder
            (truncatedContent prompt fullPath fileContent)) prompt).countP
          (fun a => a == Action.append ⟨.info, truncWarn fileName⟩)
        = countEntry ⟨.info, truncWarn fileName⟩ _ from rfl]
      rw [countEntry_sendQueryTrace_info]
      simp [List.countP_cons, hbne]

/-- The file content used by the C1 witness: 16300 characters, exceeding
the 16242-character budget of the witness prompt. -/
def c1Big : String := String.mk (List.replicate 16300 'x')

/-- The environment of the C1 witness: the working directory holds one
oversized `a.txt`. -/
def c1wEnv : Env := ⟨[.file "a.txt" c1Big], ".", .netError "refused"⟩

/-- Witness for C1: on the concrete oversized file the truncated content
has exactly the budget's length and exactly one truncation notice is
recorded. -/
theorem c1_budget_truncation_witness :
    ((truncatedContent "read a.txt" "./a.txt" c1Big).length : Int)
        = computeBudget "read a.txt" "./a.txt"
    ∧ countEntry ⟨.info, truncWarn "a.txt"⟩
        (submitQuery c1wEnv wState "read a.txt").2 = 1 := by
  have hbw : computeBudget "read a.txt" "./a.txt" = 16242 := by
    rw [computeBudget, baseTemplate_length]
    decide
  have hlen : c1Big.length = 16300 := by
    show (List.replicate 16300 'x').length = 16300
    rw [List.length_replicate]
  have hPos : 0 ≤ computeBudget "read a.txt" "./a.txt" := by
    rw [hbw]
    decide
  have hBig : (c1Big.length : Int) > computeBudget "read a.txt" "./a.txt" := by
    rw [hbw, hlen]
    decide
  have hTok : firstFileToken "read a.txt" = some "a.txt" := by decide
  have hHit : searchList "a.txt" c1wEnv.cwd c1wEnv.fs
      = some (.fileHit "./a.txt" c1Big) := rfl
  exact ⟨(c1_budget_truncation c1wEnv wState "read a.txt" "a.txt" "./a.txt" c1Big
      hTok hHit hPos hBig).2.1,
    (c1_budget_truncation c1wEnv wState "read a.txt" "a.txt" "./a.txt" c1Big
      hTok hHit hPos hBig).2.2.2.2⟩

/-- The prompt of the C1 counterexample: it contains the token `a.txt` and
is over 17000 characters long, driving the computed budget negative. -/
def c1CEPrompt : String := "a.txt " ++ String.mk (List.replicate 17000 'z')

/-- The truncation notices of `enrichForFound`, as a definitional equation
usable without evaluating the budget. -/
theorem enrichForFound_snd (prompt fileName fullPath fileContent : String) :
    (enrichForFound prompt fileName fullPath fileContent).2
      = if (fileContent.length : Int) > computeBudget prompt fullPath
        then [⟨.info, truncWarn fileName⟩] else [] := rfl

/-- C1 counterexample: with a 17006-character prompt the computed budget is
negative (−754); the resolved file's 5-character content exceeds that
budget, a truncation notice is recorded, but the embedded content is the
empty string — its length 0 is *not* equal to the budget, refuting the
claim as stated. -/
theorem c1_counterexample :
    firstFileToken c1CEPrompt = some "a.txt"
    ∧ searchList "a.txt" "." [FSEntry.file "a.txt" "hello"]
        = some (.fileHit "./a.txt" "hello")
    ∧ (("hello" : String).length : Int) > computeBudget c1CEPrompt "./a.txt"
    ∧ (enrichForFound c1CEPrompt "a.txt" "./a.txt" "hello").2
        = [⟨.info, truncWarn "a.txt"⟩]
    ∧ ((truncatedContent c1CEPrompt "./a.txt" "hello").length : Int)
        ≠ computeBudget c1CEPrompt "./a.txt" := by
  have hplen : c1CEPrompt.length = 17006 := by
    show c1CEPrompt.data.length = 17006
    rw [show c1CEPrompt.data = "a.txt ".data ++ List.replicate 17000 'z' from rfl,
      List.length_append, List.length_replicate]
    decide
  have hbt : (baseTemplate c1CEPrompt "./a.txt").length = 17147 := by
    rw [baseTemplate_length, hplen]
    decide
  have hbudget : computeBudget c1CEPrompt "./a.txt" = -754 := by
    rw [computeBudget, hbt]
    decide
  refine ⟨by decide, rfl, ?_, ?_, ?_⟩
  · rw [hbudget]
    decide
  · rw [enrichForFound_snd, hbudget]
    decide
  · rw [truncatedContent, hbudget]
    decide

/-! ## Soundness of the unreachable `dirHit` branch -/

/-- A successful anchored match carries a dot at a position `k ≥ 1`. -/
theorem matchAt_structure (l m : List Char) (h : matchAt l = some m) :
    ∃ k, 1 ≤ k ∧ m.get? k = some '.' := by
  rw [matchAt] at h
  cases hb : bestSplit (l.takeWhile isFilenameChar) with
  | none => rw [hb] at h; cases h
  | some k =>
    rw [hb] at h
    have hm : m = (l.takeWhile isFilenameChar).take k ++
        '.' :: ((l.drop (k + 1)).takeWhile isWordChar) := (Option.some.inj h).symm
    rw [bestSplit] at hb
    have hp := List.find?_some hb
    simp only [Bool.and_eq_true, decide_eq_true_eq, beq_iff_eq] at hp
    obtain ⟨⟨hk1, hkdot⟩, -⟩ := hp
    refine ⟨k, hk1, ?_⟩
    have hklt : k < (l.takeWhile isFilenameChar).length := by
      by_contra hnk
      push_neg at hnk
      rw [List.get?_eq_none.mpr hnk] at hkdot
      cases hkdot
    have htl : ((l.takeWhile isFilenameChar).take k).length = k := by
      rw [List.length_take]
      omega
    rw [hm, List.get?_append_right (by omega), htl]
    simp

/-- The leftmost-match scan inherits the dot-position structure. -/
theorem firstMatchAux_structure (l m : List Char) (h : firstMatchAux l = some m) :
    ∃ k, 1 ≤ k ∧ m.get? k = some '.' := by
  induction l with
  | nil => cases h
  | cons c rest ih =>
    rw [firstMatchAux] at h
    cases hma : matchAt (c :: rest) with
    | some m2 =>
      rw [hma] at h
      have : m2 = m := Option.some.inj h
      exact this ▸ matchAt_structure _ _ hma
    | none =>
      rw [hma] at h
      exact ih h

/-- A token produced by the filename regex is never one of the ignored
directory names: each regex match has a literal dot at an index `≥ 1`,
which none of `node_modules`, `.git`, `dist`, `build` has.  Hence the
`dirHit` branch of the search — whose path would crash `readFileSync` — is
unreachable from `submitQuery`. -/
theorem token_notMem_ignoreDirs (p t : String) (h : firstFileToken p = some t) :
    t ∉ ignoreDirs := by
  rw [firstFileToken] at h
  cases hm : firstMatchAux p.data with
  | none => rw [hm] at h; cases h
  | some m =>
    rw [hm] at h
    have ht : t = String.mk m := (Option.some.inj h).symm
    obtain ⟨k, hk1, hkdot⟩ := firstMatchAux_structure _ _ hm
    intro hmem
    have hdata : m = t.data := by rw [ht]
    rw [hdata] at hkdot
    simp only [ignoreDirs, List.mem_cons, List.not_mem_nil, or_false] at hmem
    rcases hmem with h1 | h1 | h1 | h1
    · subst h1
      have hdot := List.get?_mem hkdot
      revert hdot
      decide
    · subst h1
      have hk4 : k < (".git" : String).data.length := by
        by_contra hge
        push_neg at hge
        rw [List.get?_eq_none.mpr hge] at hkdot
        cases hkdot
      have hk4' : k < 4 := by
        have hlen : (".git" : String).data.length = 4 := by decide
        omega
      interval_cases k <;> revert hkdot <;> decide
    · subst h1
      have hdot := List.get?_mem hkdot
      revert hdot
      decide
    · subst h1
      have hdot := List.get?_mem hkdot
      revert hdot
      decide

end GeminiCli
